import Mathlib

/-!
Verification of the Assembly Voting js-client against its specification.

The TypeScript sources are shallowly embedded: JS objects become structures,
fields that start out `undefined` become `Option`, JS objects used as
ordered string-keyed maps become association lists (`List (String × α)`,
preserving insertion/iteration order), promise rejection and thrown errors
become `Except`, and the network collaborators (bulletin board, OTP provider,
voter-authorization coordinator) are injected as explicit arguments holding
the response each call would produce.  Cryptographic primitives that the
repository consumes as a trusted library (hashing, Schnorr signatures,
JSON stringification, elliptic-curve arithmetic) are passed in as abstract
function parameters; the elliptic-curve group itself is modelled as an
arbitrary additive commutative group, written additively exactly as EC
point addition is.
-/

namespace AVC

/-! ## Hex-input validation (isValidHexString, crypto util module) -/

/-- Character class `[0-9A-Fa-f]` of the validation regex. -/
def isHexChar (c : Char) : Bool :=
  ('0' ≤ c && c ≤ '9') || ('A' ≤ c && c ≤ 'F') || ('a' ≤ c && c ≤ 'f')

/-- Embedding of `isValidHexString`: reject odd length, then test
`/^[0-9A-Fa-f]+$/` (the `+` demands at least one character).  JS `length`
counts UTF-16 units while `String.length` counts code points, but any
string containing a surrogate pair also contains a non-hex character and
is rejected by the regex either way, so the two readings agree. -/
def isValidHexString (s : String) : Bool :=
  if s.length % 2 ≠ 0 then
    false
  else
    !s.data.isEmpty && s.data.all isHexChar

/-- C9 counterexample: the empty string has even length and (vacuously)
only hex characters, so the claimed iff says it is accepted; the code's
`+` quantifier rejects it. -/
theorem C9_counterexample :
    ¬ (isValidHexString "" = true ↔
        ("".length % 2 = 0 ∧ ∀ c ∈ "".data, isHexChar c = true)) := by
  decide

/-- C9 (amended): the validator accepts `s` iff `s` is non-empty, has even
length, and every character is in `[0-9A-Fa-f]`. -/
theorem C9_isValidHexString_iff (s : String) :
    isValidHexString s = true ↔
      (s.length % 2 = 0 ∧ s.data ≠ [] ∧ ∀ c ∈ s.data, isHexChar c = true) := by
  unfold isValidHexString
  by_cases h : s.length % 2 = 0
  · simp [h, List.all_eq_true]
  · simp [h]

/-! ## Data model of the voter session (av_client.ts) -/

/-- JS objects used as ordered string-keyed maps (`ContestMap<T>` /
`ContestIndexed<T>`); an association list preserves the `for...in` /
`Object.keys` iteration order. -/
abbrev ContestMap (α : Type) : Type := List (String × α)

/-- Lookup `m[k]` on a JS object-as-map; `none` is JS `undefined`. -/
def mapLookup {α : Type} (m : ContestMap α) (k : String) : Option α :=
  (m.find? (fun kv => kv.1 == k)).map (fun kv => kv.2)

/-- Map over the values of a `ContestMap`, keeping keys and order. -/
def mapValues {α β : Type} (f : α → β) (m : ContestMap α) : ContestMap β :=
  m.map (fun kv => (kv.1, f kv.2))

/-- Key pair generated at registration (hex wire forms). -/
structure KeyPair where
  privateKey : String
  publicKey : String
deriving DecidableEq

/-- Empty-cryptogram record issued by the board at registration;
`constructBallotCryptograms` reads its `empty_cryptogram` field. -/
structure EmptyCryptogram where
  commitment_point : String
  empty_cryptogram : String
deriving DecidableEq

/-- Per-contest encryption result stored in `voteEncryptions`
(`OpenableEnvelope` / `EncryptedVote`): cryptogram, randomness, proof. -/
structure OpenableEnvelope where
  cryptogram : String
  randomness : String
  proof : String
deriving DecidableEq

/-- Contest entry of `electionConfig.ballots`: numeric id, encoding type,
and the option handles that are legal values of a cast-vote-record. -/
structure Ballot where
  id : Nat
  vote_encoding_type : Nat
  options : List String
deriving DecidableEq

/-- The slice of `ElectionConfig` the lifecycle operations read. -/
structure ElectionConfig where
  encryptionKey : String
  signingPublicKey : String
  electionId : Nat
  ballots : List Ballot
  voterAuthorizerUrl : String
  otpProviderUrl : String
  affidavitCurve : String
  affidavitEncryptionKey : String
deriving DecidableEq

/-- Private fields of `AVClient`; `Option` models fields that are
`undefined` until their operation assigns them. -/
structure AVState where
  electionConfig : Option ElectionConfig
  authorizationSessionId : Option String
  email : Option String
  identityConfirmationToken : Option String
  keyPair : Option KeyPair
  testCode : Option String
  voteEncryptions : Option (ContestMap OpenableEnvelope)
  voterIdentifier : Option String
  contestIds : Option (List Nat)
  emptyCryptograms : Option (ContestMap EmptyCryptogram)
deriving DecidableEq

/-- Fresh client: `new AVClient(url)` assigns no session field. -/
def AVState.fresh : AVState :=
  ⟨none, none, none, none, none, none, none, none, none, none⟩

/-- Error taxonomy as raised by the client code. `typeError` is the JS
runtime `TypeError` from a property access on `undefined`;
`genericError` is a bare `new Error(...)`; `rejection` is
`Promise.reject(<string>)`. -/
inductive JsError where
  | invalidState (msg : String)
  | corruptCvr (msg : String)
  | invalidConfig (msg : String)
  | network (msg : String)
  | typeError (msg : String)
  | genericError (msg : String)
  | rejection (msg : String)
deriving DecidableEq

/-- Observable effects of one operation, in order: network requests to a
collaborator and local cryptographic work. -/
inductive Event where
  | network (endpoint : String)
  | crypto (op : String)
deriving DecidableEq

deriving instance DecidableEq for Except

/-- Outcome of one lifecycle call: the returned / thrown value, the
session state after the call, and the effects performed. -/
structure OpResult (α : Type) where
  result : Except JsError α
  state : AVState
  events : List Event
deriving DecidableEq

/-- Discard an operation's return value (used to quantify over all
operations uniformly). -/
def OpResult.void {α : Type} (r : OpResult α) : OpResult Unit :=
  ⟨r.result.map (fun _ => ()), r.state, r.events⟩

/-- The message of `getElectionConfig`'s guard. -/
def noConfigMsg : String := "No configuration loaded. Did you call initialize()?"

/-! ## SubmitVotes (submit_votes.ts) -/

/-- Content object that is hashed and signed for submission. -/
structure Content where
  acknowledged_at : String
  acknowledged_board_hash : String
  election_id : Nat
  voter_identifier : String
  votes : ContestMap String
deriving DecidableEq

/-- One entry of the cryptogram-and-proof payload sent to the board. -/
structure CryptogramWithProof where
  cryptogram : String
  proof : String
deriving DecidableEq

/-- Board-hash object recomputed during receipt verification. -/
structure BoardHashObj where
  content_hash : String
  previous_board_hash : String
  registered_at : String
deriving DecidableEq

/-- Receipt-hash object whose hash the server signature must verify over. -/
structure ReceiptHashObj where
  board_hash : String
  signature : String
deriving DecidableEq

/-- Receipt assembled from the submission response. -/
structure VoteReceipt where
  previousBoardHash : String
  boardHash : String
  registeredAt : String
  serverSignature : String
  voteSubmissionId : Nat
deriving DecidableEq

/-- Response `data` of `bulletinBoard.getBoardHash()`; either field may be
absent. -/
structure BoardHashResponse where
  currentBoardHash : Option String
  currentTime : Option String
deriving DecidableEq

/-- The acknowledged board state used to build the content object. -/
structure AcknowledgedBoard where
  currentBoardHash : String
  currentTime : String
deriving DecidableEq

/-- Response `data` of `bulletinBoard.submitVotes(...)`: an optional
application-level error description plus the receipt fields. -/
structure SubmitResponse where
  error : Option String
  previousBoardHash : String
  boardHash : String
  registeredAt : String
  serverSignature : String
  voteSubmissionId : Nat
deriving DecidableEq

/-- Primitives consumed as a trusted library: `Crypto.hashString`,
`JSON.stringify` at its three call shapes, and Schnorr signing and
verification. -/
structure CryptoPrims where
  hashString : String → String
  stringifyContent : Content → String
  stringifyBoardHashObj : BoardHashObj → String
  stringifyReceiptHashObj : ReceiptHashObj → String
  generateSchnorrSignature : String → String → String
  verifySchnorrSignature : String → String → String → Bool

/-- Argument record of `signAndSubmitVotes`. -/
structure SignAndSubmitArgs where
  voterIdentifier : String
  electionId : Nat
  voteEncryptions : ContestMap OpenableEnvelope
  privateKey : String
  signatureKey : String
  affidavit : String

/-- The `votes` collector: contest id to that contest's cryptogram only. -/
def buildVotes (enc : ContestMap OpenableEnvelope) : ContestMap String :=
  mapValues (fun e => e.cryptogram) enc

/-- The `cryptogramsWithProofs` collector sent alongside the submission. -/
def buildCryptogramsWithProofs (enc : ContestMap OpenableEnvelope) :
    ContestMap CryptogramWithProof :=
  mapValues (fun e => ⟨e.cryptogram, e.proof⟩) enc

/-- Embedding of `acknowledge`: fetch the board hash; reject when either
field is absent.  A transport failure of `getBoardHash` is the injected
`.error` case. -/
def acknowledge (resp : Except String BoardHashResponse) :
    Except JsError AcknowledgedBoard :=
  match resp with
  | .error e => .error (.network e)
  | .ok data =>
    match data.currentBoardHash, data.currentTime with
    | some bh, some t => .ok ⟨bh, t⟩
    | _, _ => .error (.rejection "Could not get latest board hash")

/-- The content object built from the acknowledged board, the election id,
the voter identifier and the vote encryptions. -/
def contentOf (ack : AcknowledgedBoard) (electionId : Nat)
    (voterIdentifier : String) (enc : ContestMap OpenableEnvelope) : Content :=
  { acknowledged_at := ack.currentTime
  , acknowledged_board_hash := ack.currentBoardHash
  , election_id := electionId
  , voter_identifier := voterIdentifier
  , votes := buildVotes enc }

/-- Hash of the stringified content object. -/
def contentHashOf (P : CryptoPrims) (c : Content) : String :=
  P.hashString (P.stringifyContent c)

/-- The voter's signature: a Schnorr signature over the content hash with
the voter's private key. -/
def voterSignatureOf (P : CryptoPrims) (c : Content) (privateKey : String) : String :=
  P.generateSchnorrSignature (contentHashOf P c) privateKey

/-- Embedding of `submit`: reject with the application error's description
when present, otherwise assemble the receipt from the response fields. -/
def submit (resp : Except String SubmitResponse) : Except JsError VoteReceipt :=
  match resp with
  | .error e => .error (.network e)
  | .ok data =>
    match data.error with
    | some desc => .error (.rejection desc)
    | none =>
        .ok ⟨data.previousBoardHash, data.boardHash, data.registeredAt,
             data.serverSignature, data.voteSubmissionId⟩

/-- Embedding of `verifyReceipt`: recompute the board hash from
`{content_hash, previous_board_hash, registered_at}` and compare it to the
reported one, then verify the server signature over the hash of
`{board_hash, signature}` with the election signing public key. -/
def verifyReceipt (P : CryptoPrims) (contentHash voterSignature : String)
    (receipt : VoteReceipt) (signatureKey : String) : Except JsError Unit :=
  let boardHashObj : BoardHashObj :=
    ⟨contentHash, receipt.previousBoardHash, receipt.registeredAt⟩
  let computedBoardHash := P.hashString (P.stringifyBoardHashObj boardHashObj)
  if computedBoardHash ≠ receipt.boardHash then
    .error (.rejection "Invalid vote receipt: corrupt board hash")
  else
    let receiptHashObj : ReceiptHashObj := ⟨receipt.boardHash, voterSignature⟩
    let receiptHash := P.hashString (P.stringifyReceiptHashObj receiptHashObj)
    if P.verifySchnorrSignature receipt.serverSignature receiptHash signatureKey then
      .ok ()
    else
      .error (.rejection "Invalid vote receipt: corrupt server signature")

/-- Embedding of `signAndSubmitVotes`: acknowledge, build and sign the
content, submit, verify the receipt, and only then return it. -/
def signAndSubmitVotes (P : CryptoPrims) (args : SignAndSubmitArgs)
    (getBoardHashResp : Except String BoardHashResponse)
    (submitResp : Except String SubmitResponse) : Except JsError VoteReceipt :=
  match acknowledge getBoardHashResp with
  | .error e => .error e
  | .ok ack =>
    let content := contentOf ack args.electionId args.voterIdentifier args.voteEncryptions
    let contentHash := contentHashOf P content
    let voterSignature := voterSignatureOf P content args.privateKey
    match submit submitResp with
    | .error e => .error e
    | .ok receipt =>
      match verifyReceipt P contentHash voterSignature receipt args.signatureKey with
      | .error e => .error e
      | .ok _ => .ok receipt

/-! ## CVR validation and tracking code -/

/-- Result atoms of `validateCvr`. -/
inductive CvrValidation where
  | invalid_contest
  | invalid_option
  | okay
deriving DecidableEq

/-- The contest configured for a CVR key: `contests.find(b => b.id.toString() == contestId)`. -/
def findContest (contests : List Ballot) (contestId : String) : Option Ballot :=
  contests.find? (fun b => toString b.id == contestId)

/-- Modelled from the spec: `validateCvr` (cvr_validation.ts is not in the
source snapshot).  Per §4.2 step 1 and the construct-ballot tests: a CVR
key that references no configured contest yields `invalid_contest`; a value
that is not a configured option handle of its contest yields
`invalid_option`; otherwise `okay`. -/
def validateCvr (cvr : ContestMap String) (contests : List Ballot) : CvrValidation :=
  if cvr.any (fun kv => (findContest contests kv.1).isNone) then
    .invalid_contest
  else if cvr.any (fun kv =>
      match findContest contests kv.1 with
      | none => false
      | some contest => !(contest.options.contains kv.2)) then
    .invalid_option
  else
    .okay

/-- Embedding of `extractCryptograms` (av_client.ts): keep, per contest,
only the envelope's cryptogram. -/
def extractCryptograms (envelopes : ContestMap OpenableEnvelope) : ContestMap String :=
  mapValues (fun e => e.cryptogram) envelopes

/-- Serialization of the ordered cryptogram map that is fed to the
fingerprint hash. -/
def cryptogramWireForms (cryptograms : ContestMap String) : String :=
  String.intercalate "," (cryptograms.map (fun kv => kv.1 ++ ":" ++ kv.2))

/-- Modelled from the spec: `EncryptVotes.fingerprint` (encrypt_votes.ts is
not in the source snapshot) — a deterministic hash over the ordered list of
all contests' resulting cryptogram wire forms, not over proofs or
randomizers; the hash itself is a trusted-library parameter. -/
def fingerprint (hashFn : String → String) (cryptograms : ContestMap String) : String :=
  hashFn (cryptogramWireForms cryptograms)

/-- Ballot tracking code as computed by `constructBallotCryptograms`:
the fingerprint of the extracted cryptograms. -/
def trackingCodeOf (hashFn : String → String)
    (envelopes : ContestMap OpenableEnvelope) : String :=
  fingerprint hashFn (extractCryptograms envelopes)

/-- Shape of `EncryptVotes.encrypt`, injected as a trusted collaborator:
arguments are the CVR, the per-contest empty cryptograms, the per-contest
encoding types, and the election encryption key. -/
abbrev EncryptFn : Type :=
  ContestMap String → ContestMap String → ContestMap Nat → String →
    ContestMap OpenableEnvelope

/-! ## Lifecycle operations (av_client.ts) -/

/-- Embedding of `requestAccessCode`: read the coordinator URL from the
election config, create a session, then record the session id and email. -/
def requestAccessCode (s : AVState) (_opaqueVoterId email : String)
    (createSession : Except String String) : OpResult Unit :=
  match s.electionConfig with
  | none => ⟨.error (.invalidState noConfigMsg), s, []⟩
  | some _ =>
    match createSession with
    | .error e => ⟨.error (.network e), s, [.network "create_session"]⟩
    | .ok sessionId =>
        ⟨.ok (),
         { s with authorizationSessionId := some sessionId, email := some email },
         [.network "create_session"]⟩

/-- Embedding of `validateAccessCode`: require a recorded email, read the
OTP provider URL from the config, then store the identity confirmation
token returned by the provider. -/
def validateAccessCode (s : AVState) (_code : String)
    (otpAuth : Except String String) : OpResult Unit :=
  match s.email with
  | none =>
      ⟨.error (.invalidState "Cannot validate access code. Access code was not requested."),
       s, []⟩
  | some _ =>
    match s.electionConfig with
    | none => ⟨.error (.invalidState noConfigMsg), s, []⟩
    | some _ =>
      match otpAuth with
      | .error e => ⟨.error (.network e), s, [.network "authorize"]⟩
      | .ok token =>
          ⟨.ok (), { s with identityConfirmationToken := some token },
           [.network "authorize"]⟩

/-- Data returned by the `registerVoter` collaborator call. -/
structure RegisterVoterResponse where
  voterIdentifier : String
  emptyCryptograms : ContestMap EmptyCryptogram
  contestIds : List Nat
deriving DecidableEq

/-- Embedding of `registerVoter`: require the identity confirmation token;
then the code assigns `this.keyPair = randomKeyPair()` BEFORE any network
call, asks the coordinator to authorize the public key, registers on the
bulletin board, and finally stores voter identifier, empty cryptograms and
contest ids. -/
def registerVoter (s : AVState) (freshKeyPair : KeyPair)
    (authResp : Except String (String × String))
    (regResp : Except String RegisterVoterResponse) : OpResult Unit :=
  match s.identityConfirmationToken with
  | none =>
      ⟨.error (.invalidState
         "Cannot register voter without identity confirmation. User has not validated access code."),
       s, []⟩
  | some _ =>
    let s1 := { s with keyPair := some freshKeyPair }
    match s1.electionConfig with
    | none => ⟨.error (.invalidState noConfigMsg), s1, [.crypto "randomKeyPair"]⟩
    | some _ =>
      match authResp with
      | .error e =>
          ⟨.error (.network e), s1,
           [.crypto "randomKeyPair", .network "request_authorization"]⟩
      | .ok _tokens =>
        match regResp with
        | .error e =>
            ⟨.error (.network e), s1,
             [.crypto "randomKeyPair", .network "request_authorization", .network "register"]⟩
        | .ok r =>
            ⟨.ok (),
             { s1 with voterIdentifier := some r.voterIdentifier
                     , emptyCryptograms := some r.emptyCryptograms
                     , contestIds := some r.contestIds },
             [.crypto "randomKeyPair", .network "request_authorization", .network "register"]⟩

/-- Embedding of `constructBallotCryptograms`.  The guard is the code's
`!(this.voterIdentifier || this.emptyCryptograms || this.contestIds)`: it
throws only when ALL three fields are absent.  After CVR validation the
code reads `this.emptyCryptograms[contestId].empty_cryptogram` for each CVR
key — a `TypeError` when the map or the key is absent — then encrypts,
fingerprints, and stores the envelopes. -/
def constructBallotCryptograms (s : AVState) (cvr : ContestMap String)
    (encryptFn : EncryptFn) (hashFn : String → String) : OpResult String :=
  if s.voterIdentifier.isNone && s.emptyCryptograms.isNone && s.contestIds.isNone then
    ⟨.error (.invalidState
       "Cannot construct ballot cryptograms. Voter registration not completed successfully"),
     s, []⟩
  else
    match s.electionConfig with
    | none => ⟨.error (.invalidState noConfigMsg), s, []⟩
    | some cfg =>
      match validateCvr cvr cfg.ballots with
      | .invalid_contest =>
          ⟨.error (.corruptCvr "Corrupt CVR: Contains invalid contest"), s, []⟩
      | .invalid_option =>
          ⟨.error (.corruptCvr "Corrupt CVR: Contains invalid option"), s, []⟩
      | .okay =>
        match s.emptyCryptograms with
        | none => ⟨.error (.typeError "Cannot read properties of undefined"), s, []⟩
        | some ecs =>
          match cvr.mapM (fun kv =>
              (mapLookup ecs kv.1).map (fun ec => (kv.1, ec.empty_cryptogram))) with
          | none => ⟨.error (.typeError "Cannot read properties of undefined"), s, []⟩
          | some emptyCryptograms =>
            let contestEncodingTypes : ContestMap Nat :=
              cvr.map (fun kv =>
                (kv.1, ((findContest cfg.ballots kv.1).map
                          (fun c => c.vote_encoding_type)).getD 0))
            let envelopes := encryptFn cvr emptyCryptograms contestEncodingTypes cfg.encryptionKey
            let trackingCode := trackingCodeOf hashFn envelopes
            ⟨.ok trackingCode,
             { s with voteEncryptions := some envelopes },
             [.crypto "EncryptVotes.encrypt", .crypto "EncryptVotes.fingerprint"]⟩

/-- Embedding of `generateTestCode`: store a fresh random test code. -/
def generateTestCode (s : AVState) (randomCode : String) : OpResult Unit :=
  ⟨.ok (), { s with testCode := some randomCode }, [.crypto "generateTestCode"]⟩

/-- Embedding of `spoilBallotCryptograms` (av_client.ts): the body is TODO
comments followed by an unconditional `throw new Error('Not implemented yet')`. -/
def spoilBallotCryptograms (s : AVState) : OpResult Unit :=
  ⟨.error (.genericError "Not implemented yet"), s, []⟩

/-- Embedding of `submitBallotCryptograms`.  The guard is the code's
`!(this.voterIdentifier || this.voteEncryptions)`: it throws only when BOTH
fields are absent.  Then `electionId()` forces the config, `privateKey()`
dereferences the key pair (a `TypeError` when absent), the affidavit is
encrypted, and `signAndSubmitVotes` runs.  A JS `for...in` over an absent
`voteEncryptions` iterates zero entries, hence `getD []`; the session state
is never mutated by this operation. -/
def submitBallotCryptograms (s : AVState) (affidavit : String) (P : CryptoPrims)
    (getBoardHashResp : Except String BoardHashResponse)
    (submitResp : Except String SubmitResponse) : OpResult VoteReceipt :=
  if s.voterIdentifier.isNone && s.voteEncryptions.isNone then
    ⟨.error (.invalidState
       "Cannot submit cryptograms. Voter identity unknown or no open envelopes"),
     s, []⟩
  else
    match s.electionConfig with
    | none => ⟨.error (.invalidState noConfigMsg), s, []⟩
    | some cfg =>
      match s.keyPair with
      | none => ⟨.error (.typeError "Cannot read properties of undefined"), s, []⟩
      | some kp =>
        let args : SignAndSubmitArgs :=
          { voterIdentifier := s.voterIdentifier.getD ""
          , electionId := cfg.electionId
          , voteEncryptions := s.voteEncryptions.getD []
          , privateKey := kp.privateKey
          , signatureKey := cfg.signingPublicKey
          , affidavit := affidavit }
        let events :=
          Event.crypto "encryptAffidavit" :: Event.network "get_latest_board_hash" ::
            (match acknowledge getBoardHashResp with
             | .ok _ => [Event.network "submit_votes"]
             | .error _ => [])
        ⟨signAndSubmitVotes P args getBoardHashResp submitResp, s, events⟩

/-- One lifecycle operation together with the responses its network
collaborators would produce. -/
inductive Op where
  | requestAccessCodeOp (opaqueVoterId email : String) (createSession : Except String String)
  | validateAccessCodeOp (code : String) (otpAuth : Except String String)
  | registerVoterOp (freshKeyPair : KeyPair)
      (authResp : Except String (String × String))
      (regResp : Except String RegisterVoterResponse)
  | constructBallotCryptogramsOp (cvr : ContestMap String)
      (encryptFn : EncryptFn) (hashFn : String → String)
  | generateTestCodeOp (randomCode : String)
  | spoilBallotCryptogramsOp
  | submitBallotCryptogramsOp (affidavit : String) (P : CryptoPrims)
      (getBoardHashResp : Except String BoardHashResponse)
      (submitResp : Except String SubmitResponse)

/-- Run one lifecycle operation, discarding its return value. -/
def Op.run : Op → AVState → OpResult Unit
  | .requestAccessCodeOp v e c, s => requestAccessCode s v e c
  | .validateAccessCodeOp c o, s => validateAccessCode s c o
  | .registerVoterOp k a r, s => registerVoter s k a r
  | .constructBallotCryptogramsOp cvr ef hf, s =>
      (constructBallotCryptograms s cvr ef hf).void
  | .generateTestCodeOp r, s => generateTestCode s r
  | .spoilBallotCryptogramsOp, s => spoilBallotCryptograms s
  | .submitBallotCryptogramsOp a p g r, s =>
      (submitBallotCryptograms s a p g r).void

/-- Whether the operation is `registerVoter` (the one operation that
mutates a field before its network step). -/
def Op.isRegisterVoterOp : Op → Bool
  | .registerVoterOp _ _ _ => true
  | _ => false

/-! ## Vote encryption and contest decryption (spec sections 4.2 and 4.3)

Modelled from the spec: `encrypt_votes.ts` and
`decrypt_contest_selections.ts` are not in the source snapshot (only the
decryption test is), so the engines are modelled from the spec's words.
The elliptic-curve group is an arbitrary additive commutative group `G`
written additively, as EC point addition is; an ElGamal cryptogram is the
point pair `(r • g, m + r • pk)`; randomizers are integers acting by
`zsmul`.  The byte-to-point encoding of a plaintext block is a
trusted-library parameter `pointOfBlock` with partial inverse
`blockOfPoint`. -/

/-- A two-point ElGamal cryptogram. -/
structure Cryptogram (G : Type) where
  c1 : G
  c2 : G
deriving DecidableEq

/-- Modelled from the spec: homomorphic addition is pointwise EC addition
of the matching components. -/
def homomorphicallyAdd {G : Type} [AddCommGroup G] (a b : Cryptogram G) : Cryptogram G :=
  ⟨a.c1 + b.c1, a.c2 + b.c2⟩

/-- Modelled from the spec: ElGamal encryption of message point `m` under
public key `pk` with randomizer `r` over generator `g`. -/
def elgamalEncrypt {G : Type} [AddCommGroup G] (g pk m : G) (r : ℤ) : Cryptogram G :=
  ⟨r • g, m + r • pk⟩

/-- Modelled from the spec: the empty cryptogram is an encryption of the
identity element. -/
def emptyCryptogram {G : Type} [AddCommGroup G] (g pk : G) (r : ℤ) : Cryptogram G :=
  elgamalEncrypt g pk 0 r

/-- Modelled from the spec (4.3 step 1): with the combined randomizer `r`
and the election encryption key `pk`, the plaintext block point of a
combined cryptogram is `c2 - r • pk`. -/
def decryptBlockPoint {G : Type} [AddCommGroup G] (pk : G) (r : ℤ) (c : Cryptogram G) : G :=
  c.c2 - r • pk

/-- Little-endian base-256 value of a byte list. -/
def bytesToNat : List Nat → Nat
  | [] => 0
  | b :: rest => b + 256 * bytesToNat rest

/-- The `len` little-endian base-256 digits of `n`. -/
def natToBytes : Nat → Nat → List Nat
  | 0, _ => []
  | len + 1, n => n % 256 :: natToBytes len (n / 256)

/-- Split a byte list into `count` consecutive blocks of `size` bytes. -/
def chunkBlocks (count size : Nat) (l : List Nat) : List (List Nat) :=
  match count with
  | 0 => []
  | c + 1 => l.take size :: chunkBlocks c size (l.drop size)

/-- Zero-pad a byte list on the right to `total` bytes. -/
def padContent (total : Nat) (l : List Nat) : List Nat :=
  l ++ List.replicate (total - l.length) 0

/-- Strip the zero padding back off a decoded byte list. -/
def dropTrailingZeros (l : List Nat) : List Nat :=
  (l.reverse.dropWhile (fun b => b == 0)).reverse

/-- A declared write-in text encoding: byte encoder and decoder. -/
structure TextEncoding where
  encode : String → List Nat
  decode : List Nat → Option String

/-- Write-in sub-rule of an option. -/
structure WriteInConfig where
  maxSize : Nat
  encoding : TextEncoding

/-- A configured option: reference, numeric code, optional write-in rule. -/
structure OptionConfig where
  reference : String
  code : Nat
  writeIn : Option WriteInConfig

/-- Encoding rule of a contest's marking type. -/
structure MarkingEncoding where
  codeSize : Nat
  maxSize : Nat
  cryptogramCount : Nat

/-- Contest configuration as consumed by the decryption engine. -/
structure ContestConfig where
  reference : String
  encoding : MarkingEncoding
  options : List OptionConfig

/-- One selected option, with its write-in text when present. -/
structure OptionSelection where
  reference : String
  text : Option String
deriving DecidableEq

/-- Decryption output entry: contest reference and its option selections. -/
structure ContestSelection where
  reference : String
  optionSelections : List OptionSelection
deriving DecidableEq

/-- Find a configured option by its reference handle. -/
def findOptionByRef (options : List OptionConfig) (ref : String) : Option OptionConfig :=
  options.find? (fun o => o.reference == ref)

/-- Find a configured option by its numeric code. -/
def findOptionByCode (options : List OptionConfig) (code : Nat) : Option OptionConfig :=
  options.find? (fun o => o.code == code)

/-- Modelled from the spec (4.2 step 2): the content bytes of a selection
are the option code in `codeSize` bytes followed by the write-in payload
encoded per the option's declared encoding. -/
def selectionBytes (cfg : ContestConfig) (opt : OptionConfig) (sel : OptionSelection) : List Nat :=
  natToBytes cfg.encoding.codeSize opt.code ++
    (match sel.text, opt.writeIn with
     | some t, some w => w.encoding.encode t
     | _, _ => [])

/-- Modelled from the spec (4.2 step 2): the selection encoded into exactly
`cryptogramCount` fixed-size numeric blocks of `blockSize` bytes each. -/
def selectionBlocks (blockSize : Nat) (cfg : ContestConfig) (opt : OptionConfig)
    (sel : OptionSelection) : List Nat :=
  (chunkBlocks cfg.encoding.cryptogramCount blockSize
    (padContent (cfg.encoding.cryptogramCount * blockSize) (selectionBytes cfg opt sel))).map
    bytesToNat

/-- Modelled from the spec (4.2 step 3): encrypt each block slot-wise,
recording nothing here — the randomizers are the commitment opening. -/
def encryptContestSelection {G : Type} [AddCommGroup G] (blockSize : Nat)
    (pointOfBlock : Nat → G) (g pk : G) (cfg : ContestConfig) (sel : OptionSelection)
    (randomizers : List ℤ) : Option (List (Cryptogram G)) :=
  (findOptionByRef cfg.options sel.reference).map (fun opt =>
    List.zipWith (fun b r => elgamalEncrypt g pk (pointOfBlock b) r)
      (selectionBlocks blockSize cfg opt sel) randomizers)

/-- Modelled from the spec (4.3 step 2): reassemble recovered content
bytes into the selected option by its code, decoding the trailing bytes as
write-in text per the matched option's declared encoding. -/
def decodeBytes (cfg : ContestConfig) (bytes : List Nat) : Option OptionSelection :=
  match findOptionByCode cfg.options (bytesToNat (bytes.take cfg.encoding.codeSize)) with
  | none => none
  | some opt =>
    match opt.writeIn with
    | none => some ⟨opt.reference, none⟩
    | some w =>
        (w.encoding.decode (dropTrailingZeros (bytes.drop cfg.encoding.codeSize))).map
          (fun t => ⟨opt.reference, some t⟩)

/-- Modelled from the spec (4.3): slot-wise decryption with the combined
randomizers, then reassembly of the recovered blocks into a selection. -/
def decryptContestSelection {G : Type} [AddCommGroup G] (blockSize : Nat)
    (blockOfPoint : G → Nat) (pk : G) (cfg : ContestConfig)
    (cryptograms : List (Cryptogram G)) (randomizers : List ℤ) : Option OptionSelection :=
  decodeBytes cfg
    ((((List.zipWith (fun c r => decryptBlockPoint pk r c) cryptograms randomizers).map
        blockOfPoint).map (natToBytes blockSize)).flatten)

/-- A commitment opening: overall commitment randomness plus the
per-contest randomizer lists. -/
structure CommitmentOpeningZ where
  commitmentRandomness : ℤ
  randomizers : ContestMap (List ℤ)

/-- Slot-wise sum of the two parties' randomizers. -/
def combineRandomizers (a b : List ℤ) : List ℤ :=
  List.zipWith (fun x y => x + y) a b

/-- Slot-wise homomorphic sum of two cryptogram lists. -/
def homomorphicallyAddLists {G : Type} [AddCommGroup G] (a b : List (Cryptogram G)) :
    List (Cryptogram G) :=
  List.zipWith homomorphicallyAdd a b

/-- Effectful map over a list of entries; `none` aborts the whole map
(the explicit `Option` analogue of `mapM`). -/
def mapOption {α β : Type} (f : α → Option β) : List α → Option (List β)
  | [] => some []
  | a :: l => (f a).bind (fun b => (mapOption f l).map (fun bs => b :: bs))

/-- Modelled from the spec: `decryptContestSelections` — for each contest
of the combined-cryptogram map, combine the two openings' randomizers and
decrypt that contest's slots. -/
def decryptContestSelections {G : Type} [AddCommGroup G] (blockSize : Nat)
    (blockOfPoint : G → Nat) (contestConfigs : ContestMap ContestConfig) (pk : G)
    (cryptograms : ContestMap (List (Cryptogram G)))
    (boardOpening voterOpening : CommitmentOpeningZ) : Option (List ContestSelection) :=
  mapOption (fun kv =>
    (mapLookup contestConfigs kv.1).bind (fun cfg =>
      (mapLookup voterOpening.randomizers kv.1).bind (fun vr =>
        (mapLookup boardOpening.randomizers kv.1).bind (fun br =>
          (decryptContestSelection blockSize blockOfPoint pk cfg kv.2
              (combineRandomizers vr br)).map
            (fun sel => (⟨kv.1, [sel]⟩ : ContestSelection))))))
    cryptograms

/-- Modelled from the spec: the voter's encryption of a whole CVR, one
cryptogram list per contest, using the per-contest randomizer lists. -/
def encryptCvr {G : Type} [AddCommGroup G] (blockSize : Nat) (pointOfBlock : Nat → G)
    (g pk : G) (contestConfigs : ContestMap ContestConfig)
    (cvr : ContestMap OptionSelection) (rand : ContestMap (List ℤ)) :
    Option (ContestMap (List (Cryptogram G))) :=
  mapOption (fun kv =>
    (mapLookup contestConfigs kv.1).bind (fun cfg =>
      (mapLookup rand kv.1).bind (fun rs =>
        (encryptContestSelection blockSize pointOfBlock g pk cfg kv.2 rs).map
          (fun cs => (kv.1, cs)))))
    cvr

/-- Modelled from the spec: an empty board share — every slot an encryption
of the identity under the board's randomizers. -/
def emptyShare {G : Type} [AddCommGroup G] (g pk : G) (rand : ContestMap (List ℤ)) :
    ContestMap (List (Cryptogram G)) :=
  mapValues (fun rs => rs.map (emptyCryptogram g pk)) rand

/-- Slot-wise homomorphic sum of the voter share and the board share,
contest by contest (`prepareCombinedCryptograms` of the decryption test). -/
def combineShares {G : Type} [AddCommGroup G]
    (voterShare boardShare : ContestMap (List (Cryptogram G))) :
    Option (ContestMap (List (Cryptogram G))) :=
  mapOption (fun kv =>
      (mapLookup boardShare kv.1).map (fun b => (kv.1, homomorphicallyAddLists kv.2 b)))
    voterShare

/-- Validity of one CVR entry against the contest configuration and the two
randomizer maps: the contest and option are configured, the option is
recoverable by its code, sizes fit the block structure, and the write-in
encoding round-trips without zero bytes. -/
def ValidCvrEntry (blockSize : Nat) (contestConfigs : ContestMap ContestConfig)
    (voterRand boardRand : ContestMap (List ℤ)) (kv : String × OptionSelection) : Prop :=
  ∃ cfg opt ts us,
    mapLookup contestConfigs kv.1 = some cfg ∧
    mapLookup voterRand kv.1 = some ts ∧
    mapLookup boardRand kv.1 = some us ∧
    ts.length = cfg.encoding.cryptogramCount ∧
    us.length = cfg.encoding.cryptogramCount ∧
    findOptionByRef cfg.options kv.2.reference = some opt ∧
    findOptionByCode cfg.options opt.code = some opt ∧
    opt.code < 256 ^ cfg.encoding.codeSize ∧
    (selectionBytes cfg opt kv.2).length ≤ cfg.encoding.cryptogramCount * blockSize ∧
    (∀ b ∈ selectionBytes cfg opt kv.2, b < 256) ∧
    (match kv.2.text, opt.writeIn with
     | some t, some w =>
         w.encoding.decode (w.encoding.encode t) = some t ∧ 0 ∉ w.encoding.encode t
     | none, none => True
     | _, _ => False)

/-- Equality of all session fields except the key pair. -/
def sameExceptKeyPair (a b : AVState) : Prop :=
  a.electionConfig = b.electionConfig ∧
  a.authorizationSessionId = b.authorizationSessionId ∧
  a.email = b.email ∧
  a.identityConfirmationToken = b.identityConfirmationToken ∧
  a.testCode = b.testCode ∧
  a.voteEncryptions = b.voteEncryptions ∧
  a.voterIdentifier = b.voterIdentifier ∧
  a.contestIds = b.contestIds ∧
  a.emptyCryptograms = b.emptyCryptograms

/-! ## Concrete fixtures, mirroring the repository's test data -/

/-- The two-contest election of the test fixtures: contest 1 with
`option1`/`option2`, contest 2 with `optiona`/`optionb`. -/
def testConfig : ElectionConfig :=
  { encryptionKey := "pk"
  , signingPublicKey := "spk"
  , electionId := 1
  , ballots := [⟨1, 0, ["option1", "option2"]⟩, ⟨2, 0, ["optiona", "optionb"]⟩]
  , voterAuthorizerUrl := "http://localhost:1234/"
  , otpProviderUrl := "http://localhost:1111/"
  , affidavitCurve := "k256"
  , affidavitEncryptionKey := "apk" }

/-- Empty cryptograms issued for the two test contests. -/
def testEmptyCryptograms : ContestMap EmptyCryptogram :=
  [("1", ⟨"cp1", "ec1"⟩), ("2", ⟨"cp2", "ec2"⟩)]

/-- A session that has completed initialize, requestAccessCode,
validateAccessCode and registerVoter, but not constructBallotCryptograms. -/
def registeredState : AVState :=
  { electionConfig := some testConfig
  , authorizationSessionId := some "session1"
  , email := some "voter@foo.bar"
  , identityConfirmationToken := some "token1"
  , keyPair := some ⟨"priv1", "pub1"⟩
  , testCode := none
  , voteEncryptions := none
  , voterIdentifier := some "voter123"
  , contestIds := some [1, 2]
  , emptyCryptograms := some testEmptyCryptograms }

/-- Concrete executable stand-ins for the trusted crypto library, injective
enough for the fixtures. -/
def testPrims : CryptoPrims :=
  { hashString := fun s => "H(" ++ s ++ ")"
  , stringifyContent := fun c =>
      c.acknowledged_at ++ "|" ++ c.acknowledged_board_hash ++ "|" ++
        toString c.election_id ++ "|" ++ c.voter_identifier ++ "|" ++
        cryptogramWireForms c.votes
  , stringifyBoardHashObj := fun o =>
      o.content_hash ++ "|" ++ o.previous_board_hash ++ "|" ++ o.registered_at
  , stringifyReceiptHashObj := fun o => o.board_hash ++ "|" ++ o.signature
  , generateSchnorrSignature := fun h k => "S(" ++ h ++ "," ++ k ++ ")"
  , verifySchnorrSignature := fun sig h key => sig == "S(" ++ h ++ "," ++ key ++ ")" }

/-- A concrete encryption collaborator for fixtures: one envelope per CVR
entry. -/
def testEncryptFn : EncryptFn := fun cvr _ _ _ =>
  cvr.map (fun kv => (kv.1, ⟨"CG:" ++ kv.2, "RAND:" ++ kv.2, "PROOF:" ++ kv.2⟩))

/-- A concrete envelope map as produced after construction. -/
def testEnvelopes : ContestMap OpenableEnvelope :=
  [("1", ⟨"cg1", "r1", "p1"⟩), ("2", ⟨"cg2", "r2", "p2"⟩)]

/-- The same envelopes with different randomizers and proofs but identical
cryptograms. -/
def testEnvelopesAltProofs : ContestMap OpenableEnvelope :=
  [("1", ⟨"cg1", "r1x", "p1x"⟩), ("2", ⟨"cg2", "r2x", "p2x"⟩)]

/-- Acknowledged-board fixture. -/
def testAck : AcknowledgedBoard := ⟨"bh0", "t0"⟩

/-- Submission arguments fixture. -/
def testArgs : SignAndSubmitArgs :=
  { voterIdentifier := "voter123"
  , electionId := 1
  , voteEncryptions := testEnvelopes
  , privateKey := "priv1"
  , signatureKey := "spk"
  , affidavit := "affidavit" }

/-- The content hash the fixture submission signs. -/
def testContentHash : String :=
  contentHashOf testPrims (contentOf testAck testArgs.electionId testArgs.voterIdentifier testArgs.voteEncryptions)

/-- The voter signature of the fixture submission. -/
def testVoterSignature : String :=
  voterSignatureOf testPrims (contentOf testAck testArgs.electionId testArgs.voterIdentifier testArgs.voteEncryptions) testArgs.privateKey

/-- A receipt consistent with `testPrims` for the fixture submission: the
reported board hash is the recomputed one and the server signature verifies
over the receipt hash. -/
def goodReceiptBoardHash : String :=
  testPrims.hashString (testPrims.stringifyBoardHashObj ⟨testContentHash, "prev0", "at0"⟩)

/-- The server signature that `testPrims` accepts for the good receipt. -/
def goodServerSignature : String :=
  "S(" ++ testPrims.hashString (testPrims.stringifyReceiptHashObj ⟨goodReceiptBoardHash, testVoterSignature⟩) ++ ",spk)"

/-- Submission response carrying the consistent receipt. -/
def goodSubmitResponse : SubmitResponse :=
  ⟨none, "prev0", goodReceiptBoardHash, "at0", goodServerSignature, 6⟩

/-- The receipt assembled from `goodSubmitResponse`. -/
def goodReceipt : VoteReceipt :=
  ⟨"prev0", goodReceiptBoardHash, "at0", goodServerSignature, 6⟩

/-- A receipt whose reported board hash is not the recomputed one. -/
def badBoardHashReceipt : VoteReceipt :=
  ⟨"prev0", "not-the-computed-hash", "at0", "sig", 6⟩

/-- A receipt whose board hash is right but whose server signature is not
accepted. -/
def badSignatureReceipt : VoteReceipt :=
  ⟨"prev0", goodReceiptBoardHash, "at0", "bogus-signature", 6⟩

/-- Content hash of the empty-votes submission produced when
`submitBallotCryptograms` runs with no constructed envelopes. -/
def emptyVotesContentHash : String :=
  contentHashOf testPrims (contentOf testAck 1 "voter123" [])

/-- Voter signature of the empty-votes submission. -/
def emptyVotesSignature : String :=
  voterSignatureOf testPrims (contentOf testAck 1 "voter123" []) "priv1"

/-- Board hash the server would report for the empty-votes submission. -/
def emptyVotesBoardHash : String :=
  testPrims.hashString (testPrims.stringifyBoardHashObj ⟨emptyVotesContentHash, "prev1", "at1"⟩)

/-- Server signature `testPrims` accepts for the empty-votes receipt. -/
def emptyVotesServerSignature : String :=
  "S(" ++ testPrims.hashString
    (testPrims.stringifyReceiptHashObj ⟨emptyVotesBoardHash, emptyVotesSignature⟩) ++ ",spk)"

/-- Submission response consistent with the empty-votes submission. -/
def emptyVotesSubmitResponse : SubmitResponse :=
  ⟨none, "prev1", emptyVotesBoardHash, "at1", emptyVotesServerSignature, 7⟩

/-- A session that recorded an email, a confirmation token and a voter
identifier but was never initialized with a configuration. -/
def c10State : AVState :=
  { AVState.fresh with
      email := some "voter@foo.bar"
    , identityConfirmationToken := some "token1"
    , voterIdentifier := some "voter123" }

/-- The walkthrough CVR of the repository's tests. -/
def c8Cvr : ContestMap String := [("1", "option1"), ("2", "optiona")]

/-- The envelopes `testEncryptFn` produces for the walkthrough CVR. -/
def c8Envelopes : ContestMap OpenableEnvelope :=
  [("1", ⟨"CG:option1", "RAND:option1", "PROOF:option1"⟩),
   ("2", ⟨"CG:optiona", "RAND:optiona", "PROOF:optiona"⟩)]

/-! ## Concrete fixtures for the encryption round trip -/

/-- Byte-per-character text encoding used by the round-trip fixture. -/
def asciiEncoding : TextEncoding :=
  { encode := fun s => s.data.map Char.toNat
  , decode := fun bs => some (bs.map Char.ofNat).asString }

/-- Round-trip fixture contest: one option with code 1 and a write-in
rule, `codeSize` 1, `maxSize` 5, two cryptogram slots. -/
def c1Contest : ContestConfig :=
  { reference := "big-contest"
  , encoding := { codeSize := 1, maxSize := 5, cryptogramCount := 2 }
  , options := [{ reference := "option-1", code := 1
                , writeIn := some { maxSize := 4, encoding := asciiEncoding } }] }

/-- Contest-config map of the round-trip fixture. -/
def c1Configs : ContestMap ContestConfig := [("big-contest", c1Contest)]

/-- CVR of the round-trip fixture: the write-in option with text "ab". -/
def c1Cvr : ContestMap OptionSelection := [("big-contest", ⟨"option-1", some "ab"⟩)]

/-- Voter randomizers of the round-trip fixture. -/
def c1VoterRand : ContestMap (List ℤ) := [("big-contest", [2, -5])]

/-- Board randomizers of the round-trip fixture. -/
def c1BoardRand : ContestMap (List ℤ) := [("big-contest", [7, 3])]

/-! ## Theorems -/

/-- C5: contrary to the claim (and to the repository's own spoil test,
which expects `undefined`), `spoilBallotCryptograms` unconditionally throws
`Error('Not implemented yet')` in every session state — including
BallotConstructed — performing no re-encryption, no commitment-opening
exchange and no network call. -/
theorem C5_spoil_not_implemented (s : AVState) :
    spoilBallotCryptograms s =
      ⟨.error (.genericError "Not implemented yet"), s, []⟩ := rfl

/-- C2: contrary to the claim, the prerequisite guards fire only when ALL
of an operation's prerequisite fields are absent.  In a registered session
whose `voteEncryptions` is still absent, `submitBallotCryptograms` does not
throw an invalid-state error: it proceeds to the network and submits an
empty votes map, returning a receipt. -/
theorem C2_submit_without_envelopes :
    registeredState.voteEncryptions = none ∧
    (submitBallotCryptograms registeredState "affidavit" testPrims
        (.ok ⟨some "bh0", some "t0"⟩) (.ok emptyVotesSubmitResponse)).result =
      .ok ⟨"prev1", emptyVotesBoardHash, "at1", emptyVotesServerSignature, 7⟩ ∧
    Event.network "get_latest_board_hash" ∈
      (submitBallotCryptograms registeredState "affidavit" testPrims
        (.ok ⟨some "bh0", some "t0"⟩) (.ok emptyVotesSubmitResponse)).events := by
  refine ⟨rfl, ?_, by decide⟩
  decide

/-- C10 counterexample: on a client on which `initialize` never completed,
`constructBallotCryptograms` throws the registration-guard
`InvalidStateError`, not the claimed no-configuration message. -/
theorem C10_counterexample :
    (constructBallotCryptograms AVState.fresh [("1", "option1")] testEncryptFn id).result =
      .error (.invalidState
        "Cannot construct ballot cryptograms. Voter registration not completed successfully") ∧
    (constructBallotCryptograms AVState.fresh [("1", "option1")] testEncryptFn id).result ≠
      .error (.invalidState noConfigMsg) := by
  decide

/-- C10 (amended): with no configuration loaded, every operation that
reaches `getElectionConfig` — `requestAccessCode` always; the others once
their own prerequisite guard passes — throws the invalid-state error
`'No configuration loaded. Did you call initialize()?'`. -/
theorem C10_no_config_guard (s : AVState) (h : s.electionConfig = none) :
    (∀ v e c, (requestAccessCode s v e c).result = .error (.invalidState noConfigMsg)) ∧
    (s.email ≠ none →
      ∀ c o, (validateAccessCode s c o).result = .error (.invalidState noConfigMsg)) ∧
    (s.identityConfirmationToken ≠ none →
      ∀ k a r, (registerVoter s k a r).result = .error (.invalidState noConfigMsg)) ∧
    (¬(s.voterIdentifier = none ∧ s.emptyCryptograms = none ∧ s.contestIds = none) →
      ∀ cvr ef hf,
        (constructBallotCryptograms s cvr ef hf).result = .error (.invalidState noConfigMsg)) ∧
    (¬(s.voterIdentifier = none ∧ s.voteEncryptions = none) →
      ∀ a p g r,
        (submitBallotCryptograms s a p g r).result = .error (.invalidState noConfigMsg)) := by
  refine ⟨?_, ?_, ?_, ?_, ?_⟩
  · intro v e c
    simp [requestAccessCode, h]
  · intro he c o
    cases hm : s.email with
    | none => exact absurd hm he
    | some em => simp [validateAccessCode, hm, h]
  · intro ht k a r
    cases hm : s.identityConfirmationToken with
    | none => exact absurd hm ht
    | some tok => simp [registerVoter, hm, h]
  · intro hg cvr ef hf
    have hcond :
        (s.voterIdentifier.isNone && s.emptyCryptograms.isNone && s.contestIds.isNone) = false := by
      cases hv : s.voterIdentifier <;> cases he2 : s.emptyCryptograms <;>
        cases hc : s.contestIds <;> simp_all
    simp [constructBallotCryptograms, hcond, h]
  · intro hg a p g r
    have hcond : (s.voterIdentifier.isNone && s.voteEncryptions.isNone) = false := by
      cases hv : s.voterIdentifier <;> cases hve : s.voteEncryptions <;> simp_all
    simp [submitBallotCryptograms, hcond, h]

/-- C10 witness: the amended guarantee at a concrete uninitialized session
holding an email, a token and a voter identifier. -/
theorem C10_witness :
    (requestAccessCode c10State "voter123" "voter@foo.bar" (.ok "sid")).result =
      .error (.invalidState noConfigMsg) ∧
    (validateAccessCode c10State "1234" (.ok "tok")).result =
      .error (.invalidState noConfigMsg) ∧
    (registerVoter c10State ⟨"a", "b"⟩ (.ok ("rt", "pt")) (.error "x")).result =
      .error (.invalidState noConfigMsg) ∧
    (constructBallotCryptograms c10State [("1", "option1")] testEncryptFn id).result =
      .error (.invalidState noConfigMsg) ∧
    (submitBallotCryptograms c10State "aff" testPrims (.error "x") (.error "y")).result =
      .error (.invalidState noConfigMsg) := by
  have h := C10_no_config_guard c10State rfl
  exact ⟨h.1 "voter123" "voter@foo.bar" (.ok "sid"),
         h.2.1 (by decide) "1234" (.ok "tok"),
         h.2.2.1 (by decide) ⟨"a", "b"⟩ (.ok ("rt", "pt")) (.error "x"),
         h.2.2.2.1 (by decide) [("1", "option1")] testEncryptFn id,
         h.2.2.2.2 (by decide) "aff" testPrims (.error "x") (.error "y")⟩

/-- C7: the signed content is exactly
`{acknowledged_at, acknowledged_board_hash, election_id, voter_identifier, votes}`
with `votes` the cryptogram-only projection of the envelopes; the content,
its hash and the voter signature are unchanged by any change of proofs or
randomizers that keeps the cryptograms; the proofs ride in the separate
cryptograms-with-proofs payload; and the voter signature is produced over
the hash of the stringified content. -/
theorem C7_signed_content (P : CryptoPrims) (ack : AcknowledgedBoard) (eid : Nat)
    (vid pk : String) (enc enc2 : ContestMap OpenableEnvelope) :
    contentOf ack eid vid enc =
      { acknowledged_at := ack.currentTime
      , acknowledged_board_hash := ack.currentBoardHash
      , election_id := eid
      , voter_identifier := vid
      , votes := mapValues (fun e => e.cryptogram) enc } ∧
    (buildVotes enc2 = buildVotes enc →
      contentHashOf P (contentOf ack eid vid enc2) =
        contentHashOf P (contentOf ack eid vid enc) ∧
      voterSignatureOf P (contentOf ack eid vid enc2) pk =
        voterSignatureOf P (contentOf ack eid vid enc) pk) ∧
    mapValues (fun c => c.proof) (buildCryptogramsWithProofs enc) =
      mapValues (fun e => e.proof) enc ∧
    voterSignatureOf P (contentOf ack eid vid enc) pk =
      P.generateSchnorrSignature (P.hashString (P.stringifyContent (contentOf ack eid vid enc))) pk := by
  refine ⟨rfl, ?_, ?_, rfl⟩
  · intro hv
    have hc : contentOf ack eid vid enc2 = contentOf ack eid vid enc := by
      simp [contentOf, hv]
    exact ⟨by rw [hc], by rw [hc]⟩
  · simp [mapValues, buildCryptogramsWithProofs, List.map_map]

/-- C7 witness: changing only randomizers and proofs of the fixture
envelopes leaves the content hash unchanged. -/
theorem C7_witness :
    contentHashOf testPrims (contentOf testAck 1 "voter123" testEnvelopesAltProofs) =
      contentHashOf testPrims (contentOf testAck 1 "voter123" testEnvelopes) ∧
    testEnvelopesAltProofs ≠ testEnvelopes := by
  have h := C7_signed_content testPrims testAck 1 "voter123" "priv1"
    testEnvelopes testEnvelopesAltProofs
  exact ⟨(h.2.1 (by decide)).1, by decide⟩

/-- C8: the tracking code is the fingerprint hash of the cryptogram-only
projection of the envelope set — two envelope sets with equal cryptogram
projections (arbitrary proofs and randomizers) give the same code, and the
code returned by a successful `constructBallotCryptograms` is exactly the
tracking code recomputed from the envelope set it stored. -/
theorem C8_tracking_code (hashFn : String → String)
    (e1 e2 : ContestMap OpenableEnvelope) (s : AVState) (cvr : ContestMap String)
    (ef : EncryptFn) (env : ContestMap OpenableEnvelope) (t : String) :
    (extractCryptograms e1 = extractCryptograms e2 →
      trackingCodeOf hashFn e1 = trackingCodeOf hashFn e2) ∧
    ((constructBallotCryptograms s cvr ef hashFn).result = .ok t →
      (constructBallotCryptograms s cvr ef hashFn).state.voteEncryptions = some env →
      t = trackingCodeOf hashFn env) := by
  constructor
  · intro h
    unfold trackingCodeOf fingerprint
    rw [h]
  · unfold constructBallotCryptograms
    split
    · intro hres _
      exact absurd hres (by simp)
    · split
      · intro hres _
        exact absurd hres (by simp)
      · split
        · intro hres _
          exact absurd hres (by simp)
        · intro hres _
          exact absurd hres (by simp)
        · split
          · intro hres _
            exact absurd hres (by simp)
          · split
            · intro hres _
              exact absurd hres (by simp)
            · intro hres hstate
              simp only [Except.ok.injEq] at hres
              simp only [Option.some.injEq] at hstate
              rw [← hres, ← hstate]

/-- C8 witness: the concrete walkthrough run returns the fingerprint of
its stored envelopes, and the same cryptograms under different proofs give
the same code. -/
theorem C8_witness :
    trackingCodeOf id testEnvelopesAltProofs = trackingCodeOf id testEnvelopes ∧
    "1:CG:option1,2:CG:optiona" = trackingCodeOf id c8Envelopes := by
  have h := C8_tracking_code id testEnvelopesAltProofs testEnvelopes registeredState
    c8Cvr testEncryptFn c8Envelopes "1:CG:option1,2:CG:optiona"
  exact ⟨h.1 (by decide), h.2 (by decide) (by decide)⟩

/-- C3: receipt verification fails with the board-hash-corruption message
exactly when the recomputed hash of
`{content_hash, previous_board_hash, registered_at}` differs from the
reported board hash; with the board hash right it fails with the
server-signature-corruption message when the server signature does not
verify over the recomputed receipt hash; and `signAndSubmitVotes` returns
a receipt only when acknowledge and submit succeeded and both receipt
checks passed. -/
theorem C3_receipt_verification (P : CryptoPrims)
    (contentHash voterSignature signatureKey : String) (receipt : VoteReceipt)
    (args : SignAndSubmitArgs) (g : Except String BoardHashResponse)
    (sr : Except String SubmitResponse) :
    (P.hashString (P.stringifyBoardHashObj
        ⟨contentHash, receipt.previousBoardHash, receipt.registeredAt⟩) ≠ receipt.boardHash →
      verifyReceipt P contentHash voterSignature receipt signatureKey =
        .error (.rejection "Invalid vote receipt: corrupt board hash")) ∧
    (P.hashString (P.stringifyBoardHashObj
        ⟨contentHash, receipt.previousBoardHash, receipt.registeredAt⟩) = receipt.boardHash →
     P.verifySchnorrSignature receipt.serverSignature
        (P.hashString (P.stringifyReceiptHashObj ⟨receipt.boardHash, voterSignature⟩))
        signatureKey = false →
      verifyReceipt P contentHash voterSignature receipt signatureKey =
        .error (.rejection "Invalid vote receipt: corrupt server signature")) ∧
    (∀ r, signAndSubmitVotes P args g sr = .ok r →
      ∃ ack, acknowledge g = .ok ack ∧ submit sr = .ok r ∧
        verifyReceipt P
          (contentHashOf P (contentOf ack args.electionId args.voterIdentifier args.voteEncryptions))
          (voterSignatureOf P (contentOf ack args.electionId args.voterIdentifier args.voteEncryptions)
            args.privateKey)
          r args.signatureKey = .ok ()) := by
  refine ⟨?_, ?_, ?_⟩
  · intro h
    simp [verifyReceipt, h]
  · intro h1 h2
    simp [verifyReceipt, h1, h2]
  · intro r h
    unfold signAndSubmitVotes at h
    cases ha : acknowledge g with
    | error e => rw [ha] at h; exact absurd h (by simp)
    | ok ack =>
      rw [ha] at h
      dsimp only at h
      cases hs : submit sr with
      | error e => rw [hs] at h; exact absurd h (by simp)
      | ok rec =>
        rw [hs] at h
        dsimp only at h
        cases hv : verifyReceipt P
            (contentHashOf P (contentOf ack args.electionId args.voterIdentifier args.voteEncryptions))
            (voterSignatureOf P (contentOf ack args.electionId args.voterIdentifier args.voteEncryptions)
              args.privateKey)
            rec args.signatureKey with
        | error e =>
            rw [hv] at h
            exact absurd h (by simp)
        | ok u =>
            rw [hv] at h
            simp only [Except.ok.injEq] at h
            subst h
            exact ⟨ack, rfl, rfl, by cases u; exact hv⟩

/-- C3 witness: the fixture receipts — a corrupted board hash is rejected
with the board-hash message, a corrupted server signature with the
signature message, and the consistent submission returns its receipt with
both checks passing. -/
theorem C3_witness :
    verifyReceipt testPrims testContentHash testVoterSignature badBoardHashReceipt "spk" =
      .error (.rejection "Invalid vote receipt: corrupt board hash") ∧
    verifyReceipt testPrims testContentHash testVoterSignature badSignatureReceipt "spk" =
      .error (.rejection "Invalid vote receipt: corrupt server signature") ∧
    ∃ ack, acknowledge (.ok ⟨some "bh0", some "t0"⟩) = .ok ack ∧
      submit (.ok goodSubmitResponse) = .ok goodReceipt ∧
      verifyReceipt testPrims
        (contentHashOf testPrims
          (contentOf ack testArgs.electionId testArgs.voterIdentifier testArgs.voteEncryptions))
        (voterSignatureOf testPrims
          (contentOf ack testArgs.electionId testArgs.voterIdentifier testArgs.voteEncryptions)
          testArgs.privateKey)
        goodReceipt testArgs.signatureKey = .ok () := by
  have h1 := C3_receipt_verification testPrims testContentHash testVoterSignature "spk"
    badBoardHashReceipt testArgs (.ok ⟨some "bh0", some "t0"⟩) (.ok goodSubmitResponse)
  have h2 := C3_receipt_verification testPrims testContentHash testVoterSignature "spk"
    badSignatureReceipt testArgs (.ok ⟨some "bh0", some "t0"⟩) (.ok goodSubmitResponse)
  exact ⟨h1.1 (by decide), h2.2.1 (by decide) (by decide),
         h1.2.2 goodReceipt (by decide)⟩

/-- The void wrapper changes neither success/failure nor state. -/
theorem void_result_isOk {α : Type} (r : OpResult α) :
    (r.void).result.isOk = r.result.isOk := by
  cases hr : r.result <;> simp [OpResult.void, hr, Except.isOk, Except.toBool, Except.map]

/-- The void wrapper keeps the state. -/
theorem void_state {α : Type} (r : OpResult α) : (r.void).state = r.state := rfl

/-- All-but-key-pair equality is reflexive. -/
theorem sameExceptKeyPair_refl (a : AVState) : sameExceptKeyPair a a :=
  ⟨rfl, rfl, rfl, rfl, rfl, rfl, rfl, rfl, rfl⟩

/-- A state update touching only the key pair is all-but-key-pair equal. -/
theorem sameExceptKeyPair_keyPair (a : AVState) (kp : Option KeyPair) :
    sameExceptKeyPair a { a with keyPair := kp } :=
  ⟨rfl, rfl, rfl, rfl, rfl, rfl, rfl, rfl, rfl⟩

/-- C6 counterexample: `registerVoter` overwrites the session key pair
before its network step; when the coordinator call fails the operation
fails but the session is not in its pre-call state. -/
theorem C6_counterexample :
    ((Op.registerVoterOp ⟨"privNew", "pubNew"⟩ (.error "503") (.error "unreached")).run
        registeredState).result.isOk = false ∧
    ((Op.registerVoterOp ⟨"privNew", "pubNew"⟩ (.error "503") (.error "unreached")).run
        registeredState).state ≠ registeredState := by
  decide

/-- A failed `constructBallotCryptograms` leaves the state unchanged. -/
theorem constructBallot_fail_state (s : AVState) (cvr : ContestMap String)
    (ef : EncryptFn) (hf : String → String) :
    (constructBallotCryptograms s cvr ef hf).result.isOk = false →
      (constructBallotCryptograms s cvr ef hf).state = s := by
  unfold constructBallotCryptograms
  split
  · intro _; rfl
  · split
    · intro _; rfl
    · split
      · intro _; rfl
      · intro _; rfl
      · split
        · intro _; rfl
        · split
          · intro _; rfl
          · intro hh
            exact absurd hh (by simp [Except.isOk, Except.toBool])

/-- `submitBallotCryptograms` never mutates the session state. -/
theorem submitBallot_state (s : AVState) (a : String) (p : CryptoPrims)
    (g : Except String BoardHashResponse) (r : Except String SubmitResponse) :
    (submitBallotCryptograms s a p g r).state = s := by
  unfold submitBallotCryptograms
  split
  · rfl
  · split
    · rfl
    · split
      · rfl
      · rfl

/-- C6 (amended): a failing lifecycle operation leaves every session field
except the key pair exactly as it was, and every failing operation other
than `registerVoter` (which stores a fresh key pair before its network
step) leaves the whole session state unchanged. -/
theorem C6_failure_atomicity (op : Op) (s : AVState)
    (h : (op.run s).result.isOk = false) :
    sameExceptKeyPair s (op.run s).state ∧
    (op.isRegisterVoterOp = false → (op.run s).state = s) := by
  cases op with
  | requestAccessCodeOp v e c =>
    simp only [Op.run] at h ⊢
    cases hc : s.electionConfig <;> cases hcs : c <;>
      simp_all [requestAccessCode, sameExceptKeyPair, Op.isRegisterVoterOp,
        Except.isOk, Except.toBool]
  | validateAccessCodeOp c o =>
    simp only [Op.run] at h ⊢
    cases hm : s.email <;> cases hc : s.electionConfig <;> cases ho : o <;>
      simp_all [validateAccessCode, sameExceptKeyPair, Op.isRegisterVoterOp,
        Except.isOk, Except.toBool]
  | registerVoterOp k a r =>
    simp only [Op.run] at h ⊢
    cases hm : s.identityConfirmationToken <;> cases hc : s.electionConfig <;>
      cases ha : a <;> cases hr : r <;>
      simp_all [registerVoter, sameExceptKeyPair, Op.isRegisterVoterOp,
        Except.isOk, Except.toBool]
  | constructBallotCryptogramsOp cvr ef hf =>
    simp only [Op.run] at h ⊢
    rw [void_result_isOk] at h
    simp only [void_state]
    rw [constructBallot_fail_state s cvr ef hf h]
    exact ⟨sameExceptKeyPair_refl s, fun _ => rfl⟩
  | generateTestCodeOp rc =>
    simp only [Op.run] at h
    exact absurd h (by simp [generateTestCode, Except.isOk, Except.toBool])
  | spoilBallotCryptogramsOp =>
    exact ⟨sameExceptKeyPair_refl s, fun _ => rfl⟩
  | submitBallotCryptogramsOp a p g r =>
    simp only [Op.run, void_state]
    rw [submitBallot_state s a p g r]
    exact ⟨sameExceptKeyPair_refl s, fun _ => rfl⟩

/-- C6 witness: a concrete submission whose board-hash fetch fails leaves
the registered session untouched. -/
theorem C6_witness :
    sameExceptKeyPair registeredState
      ((Op.submitBallotCryptogramsOp "aff" testPrims (.error "timeout") (.error "x")).run
          registeredState).state ∧
    ((Op.submitBallotCryptogramsOp "aff" testPrims (.error "timeout")
        (.error "x")).isRegisterVoterOp = false →
      ((Op.submitBallotCryptogramsOp "aff" testPrims (.error "timeout") (.error "x")).run
          registeredState).state = registeredState) :=
  C6_failure_atomicity _ registeredState (by decide)

/-- A CVR entry referencing no configured contest makes `validateCvr`
return `invalid_contest`. -/
theorem validateCvr_invalid_contest (cvr : ContestMap String) (contests : List Ballot)
    (h : ∃ kv ∈ cvr, findContest contests kv.1 = none) :
    validateCvr cvr contests = .invalid_contest := by
  unfold validateCvr
  rw [if_pos]
  rw [List.any_eq_true]
  obtain ⟨kv, hm, he⟩ := h
  exact ⟨kv, hm, by simp [he]⟩

/-- With every contest configured, a CVR entry whose value is not an option
of its contest makes `validateCvr` return `invalid_option`. -/
theorem validateCvr_invalid_option (cvr : ContestMap String) (contests : List Ballot)
    (h1 : ∀ kv ∈ cvr, (findContest contests kv.1).isSome = true)
    (h2 : ∃ kv ∈ cvr, ∃ b, findContest contests kv.1 = some b ∧ ¬ kv.2 ∈ b.options) :
    validateCvr cvr contests = .invalid_option := by
  unfold validateCvr
  rw [if_neg, if_pos]
  · rw [List.any_eq_true]
    obtain ⟨kv, hm, b, hb, ho⟩ := h2
    refine ⟨kv, hm, ?_⟩
    rw [hb]
    simpa using ho
  · rw [List.any_eq_true]
    rintro ⟨kv, hm, he⟩
    have hs := h1 kv hm
    rw [Option.isNone_iff_eq_none] at he
    rw [he] at hs
    simp at hs

/-- C4: after registration, a CVR with an unconfigured contest id fails
with `CorruptCvr('Corrupt CVR: Contains invalid contest')`, and one whose
contests are configured but whose selected option is not an option of its
contest fails with `CorruptCvr('Corrupt CVR: Contains invalid option')`;
in both cases the session state is unchanged and the event trace is empty
— no cryptographic work and no network access happened. -/
theorem C4_cvr_validation (s : AVState) (cfg : ElectionConfig) (cvr : ContestMap String)
    (ef : EncryptFn) (hf : String → String)
    (hc : s.electionConfig = some cfg)
    (hreg : ¬(s.voterIdentifier = none ∧ s.emptyCryptograms = none ∧ s.contestIds = none)) :
    ((∃ kv ∈ cvr, findContest cfg.ballots kv.1 = none) →
      constructBallotCryptograms s cvr ef hf =
        ⟨.error (.corruptCvr "Corrupt CVR: Contains invalid contest"), s, []⟩) ∧
    ((∀ kv ∈ cvr, (findContest cfg.ballots kv.1).isSome = true) →
     (∃ kv ∈ cvr, ∃ b, findContest cfg.ballots kv.1 = some b ∧ ¬ kv.2 ∈ b.options) →
      constructBallotCryptograms s cvr ef hf =
        ⟨.error (.corruptCvr "Corrupt CVR: Contains invalid option"), s, []⟩) := by
  have hcond :
      (s.voterIdentifier.isNone && s.emptyCryptograms.isNone && s.contestIds.isNone) = false := by
    cases hv : s.voterIdentifier <;> cases he2 : s.emptyCryptograms <;>
      cases hcc : s.contestIds <;> simp_all
  constructor
  · intro h
    have hval := validateCvr_invalid_contest cvr cfg.ballots h
    simp [constructBallotCryptograms, hcond, hc, hval]
  · intro h1 h2
    have hval := validateCvr_invalid_option cvr cfg.ballots h1 h2
    simp [constructBallotCryptograms, hcond, hc, hval]

/-- C4 witness: the repository's own invalid-CVR fixtures — contest `3` is
not configured; `wrong_option` is not an option of contest `2`. -/
theorem C4_witness :
    constructBallotCryptograms registeredState [("1", "option1"), ("3", "optiona")]
        testEncryptFn id =
      ⟨.error (.corruptCvr "Corrupt CVR: Contains invalid contest"), registeredState, []⟩ ∧
    constructBallotCryptograms registeredState [("1", "option1"), ("2", "wrong_option")]
        testEncryptFn id =
      ⟨.error (.corruptCvr "Corrupt CVR: Contains invalid option"), registeredState, []⟩ := by
  have h1 := C4_cvr_validation registeredState testConfig
    [("1", "option1"), ("3", "optiona")] testEncryptFn id rfl (by decide)
  have h2 := C4_cvr_validation registeredState testConfig
    [("1", "option1"), ("2", "wrong_option")] testEncryptFn id rfl (by decide)
  exact ⟨h1.1 ⟨("3", "optiona"), by decide, by decide⟩,
         h2.2 (by decide)
           ⟨("2", "wrong_option"), by decide, ⟨2, 0, ["optiona", "optionb"]⟩, by decide, by decide⟩⟩

/-! ### Byte and block lemmas for the round trip -/

/-- `natToBytes` always yields exactly `len` digits. -/
theorem natToBytes_length (len n : Nat) : (natToBytes len n).length = len := by
  induction len generalizing n with
  | zero => rfl
  | succ k ih => simp [natToBytes, ih]

/-- All digits produced by `natToBytes` are bytes. -/
theorem natToBytes_lt (len n : Nat) : ∀ b ∈ natToBytes len n, b < 256 := by
  induction len generalizing n with
  | zero => intro b hb; simp [natToBytes] at hb
  | succ k ih =>
    intro b hb
    simp only [natToBytes, List.mem_cons] at hb
    rcases hb with hb | hb
    · subst hb; exact Nat.mod_lt _ (by norm_num)
    · exact ih _ b hb

/-- Digits of a small enough value decode back to it. -/
theorem bytesToNat_natToBytes (len n : Nat) (h : n < 256 ^ len) :
    bytesToNat (natToBytes len n) = n := by
  induction len generalizing n with
  | zero =>
    simp only [pow_zero] at h
    interval_cases n
    rfl
  | succ k ih =>
    simp only [natToBytes, bytesToNat]
    rw [ih (n / 256) ?_]
    · exact Nat.mod_add_div n 256
    · rw [Nat.div_lt_iff_lt_mul (by norm_num)]
      rw [pow_succ] at h
      exact h

/-- A byte list re-encodes its own value. -/
theorem natToBytes_bytesToNat (bs : List Nat) (h : ∀ b ∈ bs, b < 256) :
    natToBytes bs.length (bytesToNat bs) = bs := by
  induction bs with
  | nil => rfl
  | cons b rest ih =>
    have hb : b < 256 := h b (List.mem_cons_self b rest)
    have hr : ∀ x ∈ rest, x < 256 := fun x hx => h x (List.mem_cons_of_mem b hx)
    simp only [List.length_cons, bytesToNat, natToBytes, List.cons.injEq]
    refine ⟨?_, ?_⟩
    · rw [Nat.add_mul_mod_self_left, Nat.mod_eq_of_lt hb]
    · rw [Nat.add_mul_div_left _ _ (by norm_num : 0 < 256), Nat.div_eq_of_lt hb, Nat.zero_add]
      exact ih hr

/-- A byte list's value is bounded by the base power of its length. -/
theorem bytesToNat_lt (bs : List Nat) (h : ∀ b ∈ bs, b < 256) :
    bytesToNat bs < 256 ^ bs.length := by
  induction bs with
  | nil => simp [bytesToNat]
  | cons b rest ih =>
    have hb : b < 256 := h b (List.mem_cons_self b rest)
    have hr := ih (fun x hx => h x (List.mem_cons_of_mem b hx))
    simp only [bytesToNat, List.length_cons, pow_succ]
    omega

/-- `chunkBlocks` always yields `count` chunks. -/
theorem chunkBlocks_length (count size : Nat) (l : List Nat) :
    (chunkBlocks count size l).length = count := by
  induction count generalizing l with
  | zero => rfl
  | succ c ih => simp [chunkBlocks, ih]

/-- Re-encoding each chunk of an exactly-covered byte list flattens back to
the list. -/
theorem chunkBlocks_flatten (bs : Nat) :
    ∀ (cc : Nat) (l : List Nat), l.length = cc * bs → (∀ b ∈ l, b < 256) →
      ((chunkBlocks cc bs l).map (fun ch => natToBytes bs (bytesToNat ch))).flatten = l := by
  intro cc
  induction cc with
  | zero =>
    intro l hl _
    rw [Nat.zero_mul, List.length_eq_zero] at hl
    subst hl
    rfl
  | succ c ih =>
    intro l hl hb
    have hl2 : l.length = c * bs + bs := by rw [hl, Nat.succ_mul]
    simp only [chunkBlocks, List.map_cons, List.flatten_cons]
    have htl : (l.take bs).length = bs := by
      rw [List.length_take]
      omega
    have h1 : natToBytes bs (bytesToNat (l.take bs)) = l.take bs := by
      have h2 := natToBytes_bytesToNat (l.take bs) (fun b hb2 => hb b (List.take_subset bs l hb2))
      rwa [htl] at h2
    rw [h1, ih (l.drop bs) ?_ ?_]
    · exact List.take_append_drop bs l
    · rw [List.length_drop]
      omega
    · exact fun b hb2 => hb b (List.drop_subset bs l hb2)

/-- Every block of an exactly-covered byte list is below `256 ^ size`. -/
theorem chunkBlocks_blocks_lt (bs : Nat) :
    ∀ (cc : Nat) (l : List Nat), l.length = cc * bs → (∀ b ∈ l, b < 256) →
      ∀ blk ∈ (chunkBlocks cc bs l).map bytesToNat, blk < 256 ^ bs := by
  intro cc
  induction cc with
  | zero => intro l _ _ blk hblk; simp [chunkBlocks] at hblk
  | succ c ih =>
    intro l hl hb blk hblk
    have hl2 : l.length = c * bs + bs := by rw [hl, Nat.succ_mul]
    simp only [chunkBlocks, List.map_cons, List.mem_cons] at hblk
    rcases hblk with h | h
    · subst h
      have htl : (l.take bs).length = bs := by
        rw [List.length_take]
        omega
      have h2 := bytesToNat_lt (l.take bs) (fun b hb2 => hb b (List.take_subset bs l hb2))
      rwa [htl] at h2
    · refine ih (l.drop bs) ?_ (fun b hb2 => hb b (List.drop_subset bs l hb2)) blk h
      rw [List.length_drop]
      omega

/-- `dropWhile` on zeros skips a zero-replicate prefix. -/
theorem dropWhile_replicate_zero (n : Nat) (r : List Nat) :
    List.dropWhile (fun b => b == 0) (List.replicate n 0 ++ r) =
      List.dropWhile (fun b => b == 0) r := by
  induction n with
  | zero => rfl
  | succ k ih => simp [List.replicate_succ, List.dropWhile, ih]

/-- Stripping trailing zeros undoes zero padding of a zero-free list. -/
theorem dropTrailingZeros_pad (l : List Nat) (n : Nat) (h : 0 ∉ l) :
    dropTrailingZeros (l ++ List.replicate n 0) = l := by
  unfold dropTrailingZeros
  rw [List.reverse_append, List.reverse_replicate, dropWhile_replicate_zero]
  have hd : List.dropWhile (fun b => b == 0) l.reverse = l.reverse := by
    cases hr : l.reverse with
    | nil => rfl
    | cons b t =>
      have hb : b ∈ l := by
        rw [← List.mem_reverse, hr]
        exact List.mem_cons_self _ _
      have hbne : (b == 0) = false := by
        simp only [beq_eq_false_iff_ne, ne_eq]
        intro he
        exact h (he ▸ hb)
      simp [List.dropWhile, hbne]
  rw [hd, List.reverse_reverse]

/-- Value lookup commutes with `mapValues`. -/
theorem mapLookup_mapValues {α β : Type} (f : α → β) (m : ContestMap α) (k : String) :
    mapLookup (mapValues f m) k = (mapLookup m k).map f := by
  induction m with
  | nil => rfl
  | cons kv rest ih =>
    simp only [mapValues, List.map_cons, mapLookup, List.find?_cons] at ih ⊢
    by_cases h : kv.1 == k
    · simp [h]
    · simp only [h]
      exact ih

/-- Decrypting the slot-wise homomorphic sum of an encryption and an empty
cryptogram with the summed randomizers recovers the message point. -/
theorem decrypt_combined_block {G : Type} [AddCommGroup G] (g pk m : G) (t u : ℤ) :
    decryptBlockPoint pk (t + u)
      (homomorphicallyAdd (elgamalEncrypt g pk m t) (emptyCryptogram g pk u)) = m := by
  simp only [decryptBlockPoint, homomorphicallyAdd, elgamalEncrypt, emptyCryptogram, add_zsmul]
  abel

/-- Slot-wise version of `decrypt_combined_block` over whole block lists. -/
theorem decrypt_combined_list {G : Type} [AddCommGroup G] (g pk : G) (pointOfBlock : Nat → G) :
    ∀ (blocks : List Nat) (ts us : List ℤ), ts.length = blocks.length →
      us.length = blocks.length →
      List.zipWith (fun c r => decryptBlockPoint pk r c)
        (homomorphicallyAddLists
          (List.zipWith (fun b r => elgamalEncrypt g pk (pointOfBlock b) r) blocks ts)
          (us.map (emptyCryptogram g pk)))
        (combineRandomizers ts us)
      = blocks.map pointOfBlock := by
  intro blocks
  induction blocks with
  | nil => intro ts us _ _; simp [homomorphicallyAddLists, combineRandomizers]
  | cons b bl ih =>
    intro ts us h1 h2
    cases ts with
    | nil => simp at h1
    | cons t tl =>
      cases us with
      | nil => simp at h2
      | cons u ul =>
        simp only [List.zipWith_cons_cons, List.map_cons, homomorphicallyAddLists,
          combineRandomizers]
        rw [decrypt_combined_block]
        simp only [List.length_cons] at h1 h2
        have := ih tl ul (by omega) (by omega)
        simp only [homomorphicallyAddLists, combineRandomizers] at this
        rw [this]

/-- Taking exactly the first list of an append returns it. -/
theorem take_exact_append {A : Type} (a b : List A) (n : Nat) (h : a.length = n) :
    (a ++ b).take n = a := by
  subst h
  exact List.take_left a b

/-- Dropping exactly the first list of an append returns the second. -/
theorem drop_exact_append {A : Type} (a b : List A) (n : Nat) (h : a.length = n) :
    (a ++ b).drop n = b := by
  subst h
  exact List.drop_left a b

/-- Per-contest round trip: decrypting the slot-wise homomorphic sum of a
valid selection's encryption and an empty board share, with the two
parties' summed randomizers, recovers the selection — write-in text
included. -/
theorem decrypt_encrypt_contest {G : Type} [AddCommGroup G] (blockSize : Nat)
    (pointOfBlock : Nat → G) (blockOfPoint : G → Nat) (g pk : G)
    (hpoint : ∀ b, b < 256 ^ blockSize → blockOfPoint (pointOfBlock b) = b)
    (cfg : ContestConfig) (sel : OptionSelection) (opt : OptionConfig)
    (ts us : List ℤ)
    (hts : ts.length = cfg.encoding.cryptogramCount)
    (hus : us.length = cfg.encoding.cryptogramCount)
    (href : findOptionByRef cfg.options sel.reference = some opt)
    (hcode : findOptionByCode cfg.options opt.code = some opt)
    (hcodelt : opt.code < 256 ^ cfg.encoding.codeSize)
    (hlen : (selectionBytes cfg opt sel).length ≤ cfg.encoding.cryptogramCount * blockSize)
    (hbytes : ∀ b ∈ selectionBytes cfg opt sel, b < 256)
    (htext : match sel.text, opt.writeIn with
     | some t, some w =>
         w.encoding.decode (w.encoding.encode t) = some t ∧ 0 ∉ w.encoding.encode t
     | none, none => True
     | _, _ => False) :
    ∀ voterC, encryptContestSelection blockSize pointOfBlock g pk cfg sel ts = some voterC →
      decryptContestSelection blockSize blockOfPoint pk cfg
        (homomorphicallyAddLists voterC (us.map (emptyCryptogram g pk)))
        (combineRandomizers ts us) = some sel := by
  intro voterC henc
  unfold encryptContestSelection at henc
  rw [href] at henc
  simp only [Option.map_some', Option.some.injEq] at henc
  subst henc
  have hrefeq : opt.reference = sel.reference := by
    have hfind := List.find?_some href
    simpa using hfind
  have hpadlen :
      (padContent (cfg.encoding.cryptogramCount * blockSize) (selectionBytes cfg opt sel)).length =
        cfg.encoding.cryptogramCount * blockSize := by
    unfold padContent
    rw [List.length_append, List.length_replicate]
    omega
  have hpadbytes :
      ∀ b ∈ padContent (cfg.encoding.cryptogramCount * blockSize) (selectionBytes cfg opt sel),
        b < 256 := by
    intro b hb
    unfold padContent at hb
    rw [List.mem_append] at hb
    rcases hb with hb | hb
    · exact hbytes b hb
    · rw [List.mem_replicate] at hb
      omega
  have hblocks : selectionBlocks blockSize cfg opt sel =
      (chunkBlocks cfg.encoding.cryptogramCount blockSize
        (padContent (cfg.encoding.cryptogramCount * blockSize) (selectionBytes cfg opt sel))).map
        bytesToNat := rfl
  have hblen : (selectionBlocks blockSize cfg opt sel).length = cfg.encoding.cryptogramCount := by
    rw [hblocks, List.length_map, chunkBlocks_length]
  have hdec := decrypt_combined_list g pk pointOfBlock (selectionBlocks blockSize cfg opt sel)
    ts us (by rw [hblen, hts]) (by rw [hblen, hus])
  unfold decryptContestSelection
  rw [hdec]
  have hround :
      ((selectionBlocks blockSize cfg opt sel).map pointOfBlock).map blockOfPoint =
        selectionBlocks blockSize cfg opt sel := by
    rw [List.map_map]
    have hcong : ∀ blk ∈ selectionBlocks blockSize cfg opt sel,
        (blockOfPoint ∘ pointOfBlock) blk = blk := by
      intro blk hblk
      refine hpoint blk ?_
      refine chunkBlocks_blocks_lt blockSize cfg.encoding.cryptogramCount _ hpadlen hpadbytes blk ?_
      rw [← hblocks]
      exact hblk
    rw [List.map_congr_left hcong]
    simp
  rw [hround]
  have hflat :
      ((selectionBlocks blockSize cfg opt sel).map (natToBytes blockSize)).flatten =
        padContent (cfg.encoding.cryptogramCount * blockSize) (selectionBytes cfg opt sel) := by
    rw [hblocks, List.map_map]
    exact chunkBlocks_flatten blockSize cfg.encoding.cryptogramCount _ hpadlen hpadbytes
  rw [hflat]
  unfold decodeBytes
  have htake :
      (padContent (cfg.encoding.cryptogramCount * blockSize) (selectionBytes cfg opt sel)).take
          cfg.encoding.codeSize =
        natToBytes cfg.encoding.codeSize opt.code := by
    unfold padContent selectionBytes
    rw [List.append_assoc]
    exact take_exact_append _ _ _ (natToBytes_length _ _)
  rw [htake, bytesToNat_natToBytes _ _ hcodelt, hcode]
  have hdrop :
      (padContent (cfg.encoding.cryptogramCount * blockSize) (selectionBytes cfg opt sel)).drop
          cfg.encoding.codeSize =
        (match sel.text, opt.writeIn with
         | some t, some w => w.encoding.encode t
         | _, _ => ([] : List Nat)) ++
          List.replicate
            (cfg.encoding.cryptogramCount * blockSize - (selectionBytes cfg opt sel).length) 0 := by
    unfold padContent selectionBytes
    rw [List.append_assoc]
    exact drop_exact_append _ _ _ (natToBytes_length _ _)
  dsimp only
  cases hw : opt.writeIn with
  | none =>
    dsimp only
    cases hsel : sel.text with
    | some t =>
      rw [hsel, hw] at htext
      exact absurd htext (by simp)
    | none =>
      cases sel with
      | mk selRef selText =>
        dsimp only at hsel
        subst hsel
        dsimp only at hrefeq
        rw [hrefeq]
  | some w =>
    dsimp only
    cases hsel : sel.text with
    | none =>
      rw [hsel, hw] at htext
      exact absurd htext (by simp)
    | some t =>
      rw [hsel, hw] at htext
      dsimp only at htext
      obtain ⟨hdect, hzero⟩ := htext
      rw [hdrop, hsel, hw]
      dsimp only
      rw [dropTrailingZeros_pad _ _ hzero, hdect]
      cases sel with
      | mk selRef selText =>
        dsimp only at hsel
        subst hsel
        dsimp only at hrefeq
        rw [hrefeq]
        rfl

/-- C1: for every valid CVR and matching contest configuration,
decrypting the slot-wise homomorphic sum of the voter's encryption of the
CVR and an empty board share, using both parties' true commitment-opening
randomizers and the election encryption key, yields exactly the CVR's
selections — write-in text decoded per the option's declared encoding. -/
theorem C1_round_trip {G : Type} [AddCommGroup G] (blockSize : Nat)
    (pointOfBlock : Nat → G) (blockOfPoint : G → Nat) (g pk : G)
    (contestConfigs : ContestMap ContestConfig) (cvr : ContestMap OptionSelection)
    (voterRand boardRand : ContestMap (List ℤ)) (crv crb : ℤ)
    (hpoint : ∀ b, b < 256 ^ blockSize → blockOfPoint (pointOfBlock b) = b)
    (hvalid : ∀ kv ∈ cvr, ValidCvrEntry blockSize contestConfigs voterRand boardRand kv) :
    ((encryptCvr blockSize pointOfBlock g pk contestConfigs cvr voterRand).bind
      (fun voterShare => combineShares voterShare (emptyShare g pk boardRand))).bind
      (fun combined =>
        decryptContestSelections blockSize blockOfPoint contestConfigs pk combined
          ⟨crb, boardRand⟩ ⟨crv, voterRand⟩) =
      some (cvr.map (fun kv => (⟨kv.1, [kv.2]⟩ : ContestSelection))) := by
  induction cvr with
  | nil => rfl
  | cons kv rest ih =>
    obtain ⟨cfg, opt, ts, us, hcfg, hvr, hbr, hts, hus, href, hcode, hcodelt, hlen, hbytes,
      htext⟩ := hvalid kv (List.mem_cons_self kv rest)
    have ih2 := ih (fun kv2 h2 => hvalid kv2 (List.mem_cons_of_mem kv h2))
    have henc : encryptContestSelection blockSize pointOfBlock g pk cfg kv.2 ts =
        some (List.zipWith (fun b r => elgamalEncrypt g pk (pointOfBlock b) r)
          (selectionBlocks blockSize cfg opt kv.2) ts) := by
      unfold encryptContestSelection
      rw [href]
      rfl
    have hdecHead := decrypt_encrypt_contest blockSize pointOfBlock blockOfPoint g pk hpoint
      cfg kv.2 opt ts us hts hus href hcode hcodelt hlen hbytes htext _ henc
    have hbs : mapLookup (emptyShare g pk boardRand) kv.1 =
        some (us.map (emptyCryptogram g pk)) := by
      unfold emptyShare
      rw [mapLookup_mapValues, hbr]
      rfl
    cases hER : encryptCvr blockSize pointOfBlock g pk contestConfigs rest voterRand with
    | none =>
      rw [hER] at ih2
      simp at ih2
    | some voterRest =>
      rw [hER] at ih2
      simp only [Option.some_bind] at ih2
      cases hCR : combineShares voterRest (emptyShare g pk boardRand) with
      | none =>
        rw [hCR] at ih2
        simp at ih2
      | some combinedRest =>
        rw [hCR] at ih2
        simp only [Option.some_bind] at ih2
        show ((mapOption _ (kv :: rest)).bind _).bind _ = _
        rw [mapOption]
        rw [hcfg]
        simp only [Option.some_bind]
        rw [hvr]
        simp only [Option.some_bind]
        rw [henc]
        simp only [Option.map_some']
        have hERu : mapOption (fun kv =>
            (mapLookup contestConfigs kv.1).bind (fun cfg =>
              (mapLookup voterRand kv.1).bind (fun rs =>
                (encryptContestSelection blockSize pointOfBlock g pk cfg kv.2 rs).map
                  (fun cs => (kv.1, cs))))) rest = some voterRest := hER
        rw [hERu]
        simp only [Option.map_some', Option.some_bind]
        show (combineShares _ _).bind _ = _
        rw [combineShares, mapOption]
        rw [hbs]
        simp only [Option.map_some', Option.some_bind]
        have hCRu : mapOption (fun kv =>
            (mapLookup (emptyShare g pk boardRand) kv.1).map
              (fun b => (kv.1, homomorphicallyAddLists kv.2 b))) voterRest =
            some combinedRest := hCR
        rw [hCRu]
        simp only [Option.map_some', Option.some_bind]
        show decryptContestSelections _ _ _ _ _ _ _ = _
        rw [decryptContestSelections, mapOption]
        rw [hcfg]
        simp only [Option.some_bind]
        show ((mapLookup voterRand kv.1).bind _).bind _ = _
        rw [hvr]
        simp only [Option.some_bind]
        show ((mapLookup boardRand kv.1).bind _).bind _ = _
        rw [hbr]
        simp only [Option.some_bind]
        rw [hdecHead]
        simp only [Option.map_some', Option.some_bind]
        have ih2u : mapOption (fun kv2 =>
            (mapLookup contestConfigs kv2.1).bind (fun cfg2 =>
              (mapLookup voterRand kv2.1).bind (fun vr =>
                (mapLookup boardRand kv2.1).bind (fun br =>
                  (decryptContestSelection blockSize blockOfPoint pk cfg2 kv2.2
                      (combineRandomizers vr br)).map
                    (fun sel => (⟨kv2.1, [sel]⟩ : ContestSelection)))))) combinedRest =
            some (rest.map (fun kv2 => (⟨kv2.1, [kv2.2]⟩ : ContestSelection))) := ih2
        rw [ih2u]
        simp only [Option.map_some', List.map_cons]

/-- C1 witness: the concrete fixture — one write-in contest, text "ab",
integers as the EC group — encrypts, combines with the empty board share,
and decrypts back to exactly the CVR. -/
theorem C1_witness :
    ((encryptCvr 3 (fun b => (b : ℤ)) 2 10 c1Configs c1Cvr c1VoterRand).bind
      (fun voterShare => combineShares voterShare (emptyShare 2 10 c1BoardRand))).bind
      (fun combined =>
        decryptContestSelections 3 Int.toNat c1Configs 10 combined
          ⟨0, c1BoardRand⟩ ⟨0, c1VoterRand⟩) =
      some [⟨"big-contest", [⟨"option-1", some "ab"⟩]⟩] := by
  have h := C1_round_trip 3 (fun b => (b : ℤ)) Int.toNat 2 10 c1Configs c1Cvr
    c1VoterRand c1BoardRand 0 0 ?hp ?hv
  · exact h
  case hp =>
    intro b _
    simp
  case hv =>
    intro kv hkv
    simp only [c1Cvr, List.mem_singleton] at hkv
    subst hkv
    refine ⟨c1Contest,
      { reference := "option-1", code := 1
      , writeIn := some { maxSize := 4, encoding := asciiEncoding } },
      [2, -5], [7, 3], rfl, rfl, rfl, rfl, rfl, rfl, rfl, by decide, by decide, by decide, ?_⟩
    exact ⟨by decide, by decide⟩

end AVC
